import Mathlib

/-!
Verification of the TierOne tar streaming reader.

This file gives a shallow embedding of the decoding core of the library
(block framing, ustar header parsing, PAX/GNU extension application, the
sparse map decoders and the sparse-aware data view) and proves properties
of the embedded functions.  Bytes are modelled as `Nat`, byte streams and
fixed-size records as `List Nat`, machine integers as `Nat` with explicit
bounds where the C++ code can overflow, and fallible operations return
`Except Err`.
-/

set_option maxRecDepth 10000

namespace TarVerify

/-- Error kinds of the library, from `error.hpp` (`enum class error_code`). -/
inductive ErrorCode where
  | invalidHeader
  | corruptArchive
  | ioError
  | unsupportedFeature
  | invalidOperation
  | endOfArchive
deriving DecidableEq, Repr

/-- An error value: a kind together with a human-readable message
(`class error` in `error.hpp`). -/
structure Err where
  code : ErrorCode
  msg : String
deriving DecidableEq, Repr

/-- Byte string of a Lean string literal (ASCII). -/
def bytes (s : String) : List Nat := s.data.map Char.toNat

/-- `detail::BLOCK_SIZE` (header_parser.hpp). -/
def BLOCK_SIZE : Nat := 512

/-- `detail::is_zero_block`: every byte of the record is zero. -/
def is_zero_block (b : List Nat) : Bool := b.all (· = 0)

/-- `archive_reader::read_block` (stream.cpp).  The stream is modelled as the
list of bytes not yet consumed; a read of 512 bytes returns
`min 512 length` bytes, and the stream is at end exactly when the list is
empty.  A full record is returned together with the rest of the stream;
zero bytes at end of stream report `end_of_archive`; any other short read
is a corrupt archive. -/
def read_block (s : List Nat) : Except Err (List Nat × List Nat) :=
  let res := s.take BLOCK_SIZE
  if res.length = BLOCK_SIZE then .ok (res, s.drop BLOCK_SIZE)
  else if res.length = 0 then .error ⟨.endOfArchive, "Unexpected end of archive"⟩
  else .error ⟨.corruptArchive, "Incomplete block read"⟩

/-- Outcome of the header-reading phase of `archive_reader::next_entry`
(stream.cpp): either the sequence ends without error, or an error is
reported, or a non-terminator header record is obtained. -/
inductive HeaderPhase where
  | cleanEnd
  | fail (e : Err)
  | header (block rest : List Nat)
deriving DecidableEq, Repr

/-- The header-reading phase of `archive_reader::next_entry` (stream.cpp):
read a record; `end_of_archive` from the read is a clean end; an all-zero
record must be followed by a second all-zero record to terminate the
archive, and otherwise reports a corrupt archive. -/
def next_entry_header_phase (s : List Nat) : HeaderPhase :=
  match read_block s with
  | .error e => if e.code = .endOfArchive then .cleanEnd else .fail e
  | .ok (b, rest) =>
    if is_zero_block b then
      match read_block rest with
      | .ok (b2, _) =>
        if is_zero_block b2 then .cleanEnd
        else .fail ⟨.corruptArchive, "Single zero block in archive"⟩
      | .error _ => .fail ⟨.corruptArchive, "Single zero block in archive"⟩
    else .header b rest

/-- Loop of `detail::parse_octal` (header_parser.hpp): skip leading NUL/space
bytes, then accumulate octal digits; a NUL or space after a digit ends the
field; any other byte is an invalid octal digit; exceeding
`UINT64_MAX >> 3` before a shift is an overflow. -/
def parse_octal_loop : List Nat → Nat → Bool → Except Err Nat
  | [], result, found => .ok (if found then result else 0)
  | c :: rest, result, found =>
    if c = 0 ∨ c = 32 then
      if found then .ok result else parse_octal_loop rest result found
    else if c < 48 ∨ 55 < c then .error ⟨.invalidHeader, "Invalid octal digit"⟩
    else if (2 ^ 64 - 1) / 8 < result then .error ⟨.invalidHeader, "Octal value overflow"⟩
    else parse_octal_loop rest (result * 8 + (c - 48)) true

/-- `detail::parse_octal` (header_parser.hpp). -/
def parse_octal (fld : List Nat) : Except Err Nat := parse_octal_loop fld 0 false

/-- `detail::extract_string` (pax_parser.cpp): the field up to the first NUL
byte, or the whole field if none. -/
def extract_string (fld : List Nat) : List Nat := fld.takeWhile (fun c => !(c == 0))

/-- Fixed-width field of a 512-byte record at a given offset. -/
def field (block : List Nat) (off len : Nat) : List Nat := (block.drop off).take len

/-- The record with the checksum field (bytes 148..155) replaced by eight
spaces, as `detail::calculate_checksum` does before summing. -/
def fill_checksum_spaces (b : List Nat) : List Nat :=
  b.take 148 ++ List.replicate 8 32 ++ b.drop 156

/-- `detail::calculate_checksum` (pax_parser.cpp): unsigned sum of all 512
bytes with the checksum field treated as spaces. -/
def calculate_checksum (b : List Nat) : Nat := (fill_checksum_spaces b).sum

/-- Octal-digit test used by the GNU-sparse tolerant parser. -/
def isOctalDigit (c : Nat) : Bool := 48 ≤ c && c ≤ 55

/-- Value of the leading octal-digit run of a byte list. -/
def octalRunValue (l : List Nat) : Nat :=
  (l.takeWhile isOctalDigit).foldl (fun a c => a * 8 + (c - 48)) 0

/-- `sparse::parse_sparse_octal` (sparse.cpp): scan the field for the longest
contiguous run of octal digits (the first such run on ties) and decode it;
`none` when the field holds no octal digit. -/
def parse_sparse_octal (fld : List Nat) : Option Nat :=
  let cands := (List.range fld.length).map (fun start =>
    let suffix := fld.drop start
    if isOctalDigit (suffix.headD 0) then
      ((suffix.takeWhile isOctalDigit).length, octalRunValue suffix)
    else (0, 0))
  let best := cands.foldl (fun acc p => if acc.1 < p.1 then p else acc) (0, 0)
  if 0 < best.1 then some best.2 else none

/-- `sparse::sparse_entry`: one data segment of a sparse file. -/
structure SparseEntry where
  offset : Nat
  size : Nat
deriving DecidableEq, Repr

/-- `sparse::sparse_metadata`: real size plus the data segments. -/
structure SparseMeta where
  real_size : Nat := 0
  segments : List SparseEntry := []
deriving DecidableEq, Repr

/-- `sparse_metadata::total_data_size`: sum of all segment sizes. -/
def SparseMeta.total_data_size (m : SparseMeta) : Nat := (m.segments.map (·.size)).sum

/-- Index scan of `sparse_metadata::find_segment`. -/
def findSegmentAux : List SparseEntry → Nat → Nat → Option Nat
  | [], _, _ => none
  | e :: rest, off, i =>
    if e.offset ≤ off ∧ off < e.offset + e.size then some i
    else findSegmentAux rest off (i + 1)

/-- `sparse_metadata::find_segment`: index of the first segment containing
the offset. -/
def SparseMeta.find_segment (m : SparseMeta) (off : Nat) : Option Nat :=
  findSegmentAux m.segments off 0

/-- Shared loop of `sparse::parse_old_sparse_header` and
`sparse::read_sparse_map_continuation`: decode `(offset, numbytes)` pairs of
12-byte sparse-octal fields starting at `base`, stopping at the first pair
that fails to parse or has size zero, and after `count` pairs. -/
def sparseEntriesFrom (block : List Nat) (base : Nat) : Nat → List SparseEntry
  | 0 => []
  | n + 1 =>
    match parse_sparse_octal (field block base 12),
          parse_sparse_octal (field block (base + 12) 12) with
    | some off, some sz =>
      if sz = 0 then [] else ⟨off, sz⟩ :: sparseEntriesFrom block (base + 24) n
    | _, _ => []

/-- `sparse::parse_old_sparse_header` (sparse.cpp): four pairs in the header
overlay at offset 384, real size from the sparse-octal field at 481, with
fallback `last.offset + last.size` when the real-size field does not parse
and segments exist. -/
def parse_old_sparse_header (block : List Nat) : Except Err SparseMeta :=
  let segs := sparseEntriesFrom block 384 4
  let realSize :=
    match parse_sparse_octal (field block 481 12) with
    | some rs => rs
    | none =>
      match segs.getLast? with
      | some last => last.offset + last.size
      | none => 0
  .ok ⟨realSize, segs⟩

/-- ACL tag variants (`acl_entry::type` in metadata.hpp). -/
inductive AclType where
  | user
  | group
  | mask
  | other
  | userObj
  | groupObj
deriving DecidableEq, Repr

/-- `acl_entry` (metadata.hpp): tag, numeric id, permission bits
(read=4, write=2, execute=1) and optional name (never set by the parser). -/
structure AclEntry where
  entry_type : AclType
  id : Nat := 0
  permissions : Nat := 0
  name : List Nat := []
deriving DecidableEq, Repr

/-- `file_metadata` (metadata.hpp), with the entry type kept as the raw
type-flag byte and strings as byte lists. -/
structure Metadata where
  path : List Nat := []
  typeflag : Nat := 48
  permissions : Nat := 256
  owner_id : Nat := 0
  group_id : Nat := 0
  size : Nat := 0
  mtime : Nat := 0
  owner_name : List Nat := []
  group_name : List Nat := []
  link_target : Option (List Nat) := none
  device_major : Nat := 0
  device_minor : Nat := 0
  sparse_info : Option SparseMeta := none
  xattrs : List (List Nat × List Nat) := []
  access_acl : List AclEntry := []
  default_acl : List AclEntry := []
deriving DecidableEq, Repr

/-- `std::filesystem::path::operator/` on POSIX, as used for
`path{prefix} / name`: an absolute right side replaces the left, otherwise
a separator is inserted unless one ends the left side. -/
def path_join (pre name : List Nat) : List Nat :=
  if name.headD 0 = 47 then name
  else if pre.getLast? = some 47 then pre ++ name
  else pre ++ 47 :: name

/-- The type-flag bytes admitted by the validation switch of
`detail::parse_header`. -/
def validTypeflag (t : Nat) : Bool :=
  t = 48 || t = 0 || t = 49 || t = 50 || t = 51 || t = 52 || t = 53 || t = 54 ||
  t = 55 || t = 120 || t = 103 || t = 76 || t = 75 || t = 83 || t = 86 || t = 77

/-- Render a byte list as a string for error messages. -/
def strOfBytes (l : List Nat) : String := String.mk (l.map Char.ofNat)

/-- `detail::parse_header` (pax_parser.cpp): magic and version gates, checksum
verification, the five numeric fields, path assembly from prefix and name,
GNU sparse-overlay detection for type-flags `'0'` and `'S'` under a GNU
magic, device and link fields, and the entry-type validation switch. -/
def parse_header (block : List Nat) : Except Err Metadata :=
  let magic := extract_string (field block 257 6)
  if magic ≠ bytes "ustar" ∧ magic ≠ bytes "ustar " then
    .error ⟨.invalidHeader,
      "Not a POSIX ustar or GNU tar archive (magic: " ++ strOfBytes magic ++ ")"⟩
  else
    let version := extract_string (field block 263 2)
    if version ≠ bytes "00" ∧ version ≠ bytes " " then
      .error ⟨.invalidHeader, "Unsupported tar version"⟩
    else
      match parse_octal (field block 148 8) with
      | .error e => .error e
      | .ok stored =>
        if calculate_checksum block ≠ stored then
          .error ⟨.corruptArchive, "Header checksum mismatch"⟩
        else
          match parse_octal (field block 100 8), parse_octal (field block 108 8),
                parse_octal (field block 116 8), parse_octal (field block 124 12),
                parse_octal (field block 136 12) with
          | .ok mode, .ok uid, .ok gid, .ok size, .ok mtime =>
            let pre := extract_string (field block 345 155)
            let name := extract_string (field block 0 100)
            let path := if pre ≠ [] then path_join pre name else name
            let tf := (field block 156 1).headD 0
            let isGnuMagic := magic = bytes "ustar " ∨ magic = bytes "ustar"
            let sparseInfo :=
              if isGnuMagic ∧ (tf = 48 ∨ tf = 83) then
                match parse_old_sparse_header block with
                | .ok sm => if sm.segments ≠ [] then some sm else none
                | .error _ => none
              else none
            if path = [] then .error ⟨.invalidHeader, "Empty file path"⟩
            else
              let etype := if sparseInfo.isSome then 48 else tf
              let devMajor :=
                if etype = 51 ∨ etype = 52 then
                  ((parse_octal (field block 329 8)).toOption.getD 0) % 2 ^ 32
                else 0
              let devMinor :=
                if etype = 51 ∨ etype = 52 then
                  ((parse_octal (field block 337 8)).toOption.getD 0) % 2 ^ 32
                else 0
              let linkTarget :=
                if etype = 50 ∨ etype = 49 then
                  let ln := extract_string (field block 157 100)
                  if ln ≠ [] then some ln else none
                else none
              if ¬ validTypeflag etype then
                .error ⟨.unsupportedFeature, "Unsupported entry type: " ++ toString tf⟩
              else
                .ok { path := path
                      typeflag := etype
                      permissions := mode % 4096
                      owner_id := uid % 2 ^ 32
                      group_id := gid % 2 ^ 32
                      size := size
                      mtime := mtime
                      owner_name := extract_string (field block 265 32)
                      group_name := extract_string (field block 297 32)
                      link_target := linkTarget
                      device_major := devMajor
                      device_minor := devMinor
                      sparse_info := sparseInfo }
          | _, _, _, _, _ => .error ⟨.invalidHeader, "Failed to parse numeric fields"⟩

/-- The parsed PAX extended-header map (`std::map<std::string, std::string>`),
modelled as an association list with unique keys. -/
abbrev PaxMap := List (List Nat × List Nat)

/-- Decimal-digit test. -/
def isDigit (c : Nat) : Bool := 48 ≤ c && c ≤ 57

/-- Decimal value of a digit run. -/
def digitsValue (l : List Nat) : Nat := l.foldl (fun a c => a * 10 + (c - 48)) 0

/-- Model of `std::from_chars` for an unsigned integer type with maximum
value `max`: fails when the input does not start with a digit
(`invalid_argument`) or when the consumed digit run denotes a value above
`max` (`result_out_of_range`); otherwise the longest digit run at the start
is consumed and later bytes are ignored. -/
def from_chars_unsigned (s : List Nat) (max : Nat) : Option Nat :=
  let ds := s.takeWhile isDigit
  if ds = [] then none
  else if max < digitsValue ds then none
  else some (digitsValue ds)

/-- Model of `std::from_chars` for `int`: an optional minus sign followed by
digits, within the 32-bit signed range. -/
def from_chars_int (s : List Nat) : Option Int :=
  match s with
  | 45 :: rest =>
    match from_chars_unsigned rest (2 ^ 31) with
    | some n => some (-(n : Int))
    | none => none
  | _ =>
    match from_chars_unsigned s (2 ^ 31 - 1) with
    | some n => some (n : Int)
    | none => none

/-- `pax::has_gnu_sparse_markers` (pax_parser.cpp). -/
def has_gnu_sparse_markers (hdrs : PaxMap) : Bool :=
  (hdrs.lookup (bytes "GNU.sparse.major")).isSome ||
  (hdrs.lookup (bytes "GNU.sparse.minor")).isSome ||
  (hdrs.lookup (bytes "GNU.sparse.map")).isSome

/-- `pax::get_gnu_sparse_version` (pax_parser.cpp): each component defaults
to 0 when missing or unparsable. -/
def get_gnu_sparse_version (hdrs : PaxMap) : Int × Int :=
  let major := match hdrs.lookup (bytes "GNU.sparse.major") with
    | some v => (from_chars_int v).getD 0
    | none => 0
  let minor := match hdrs.lookup (bytes "GNU.sparse.minor") with
    | some v => (from_chars_int v).getD 0
    | none => 0
  (major, minor)

/-- `result[key] = value` on an association-list map as on `std::map`:
replace the value of an existing key, else add the entry. -/
def mapInsert (m : List (List Nat × List Nat)) (k v : List Nat) :
    List (List Nat × List Nat) :=
  match m with
  | [] => [(k, v)]
  | (k0, v0) :: rest =>
    if k0 = k then (k0, v) :: rest else (k0, v0) :: mapInsert rest k v

/-- `pax::extract_extended_attributes` (pax_parser.cpp): keys under
`SCHILY.xattr.` or `LIBARCHIVE.xattr.` with the respective marker removed,
inserted into a map in iteration order — as with the `std::map` result, a
later occurrence of the same stripped name overwrites the earlier one. -/
def extract_extended_attributes (hdrs : PaxMap) : List (List Nat × List Nat) :=
  hdrs.foldl (fun acc kv =>
    if (bytes "SCHILY.xattr.").isPrefixOf kv.1 then mapInsert acc (kv.1.drop 13) kv.2
    else if (bytes "LIBARCHIVE.xattr.").isPrefixOf kv.1 then mapInsert acc (kv.1.drop 17) kv.2
    else acc) []

/-- `std::getline(stream, out, delim)` on a byte list: fails only when no
byte is available; otherwise consumes up to and including the first
delimiter and yields the bytes before it. -/
def getlineBytes (l : List Nat) (d : Nat) : Option (List Nat × List Nat) :=
  if l = [] then none
  else some (l.takeWhile (fun c => !(c == d)), (l.dropWhile (fun c => !(c == d))).drop 1)

/-- Space or tab, the characters trimmed around an ACL entry. -/
def isTrimByte (c : Nat) : Bool := c == 32 || c == 9

/-- Whitespace trimming per the two `erase` calls of `pax::parse_acl_text`. -/
def trimBytes (l : List Nat) : List Nat :=
  ((l.dropWhile isTrimByte).reverse.dropWhile isTrimByte).reverse

/-- One `type:id:perm` entry of `pax::parse_acl_text` (pax_parser.cpp): three
`getline` extractions (the last one running to the next newline), tag
mapping with the empty-id `obj` variants, `from_chars` on a non-empty id,
a three-character permission part, and positional permission bits. -/
def parse_acl_entry (s : List Nat) : Except Err AclEntry :=
  match getlineBytes s 58 with
  | none => .error ⟨.invalidHeader, "Invalid ACL entry format: " ++ strOfBytes s⟩
  | some (typeStr, r1) =>
    match getlineBytes r1 58 with
    | none => .error ⟨.invalidHeader, "Invalid ACL entry format: " ++ strOfBytes s⟩
    | some (idStr, r2) =>
      if r2 = [] then .error ⟨.invalidHeader, "Invalid ACL entry format: " ++ strOfBytes s⟩
      else
        let permStr := r2.takeWhile (fun c => !(c == 10))
        let tagged :=
          if typeStr = bytes "user" then
            some (if idStr = [] then AclType.userObj else AclType.user)
          else if typeStr = bytes "group" then
            some (if idStr = [] then AclType.groupObj else AclType.group)
          else if typeStr = bytes "mask" then some AclType.mask
          else if typeStr = bytes "other" then some AclType.other
          else none
        match tagged with
        | none => .error ⟨.invalidHeader, "Unknown ACL entry type: " ++ strOfBytes typeStr⟩
        | some ty =>
          let parsedId :=
            if idStr = [] then some 0
            else from_chars_unsigned idStr (2 ^ 32 - 1)
          match parsedId with
          | none => .error ⟨.invalidHeader, "Invalid ACL ID: " ++ strOfBytes idStr⟩
          | some theId =>
            if permStr.length ≠ 3 then
              .error ⟨.invalidHeader, "Invalid ACL permission format: " ++ strOfBytes permStr⟩
            else
              .ok ⟨ty, theId,
                   (if permStr.getD 0 0 = 114 then 4 else 0) +
                   (if permStr.getD 1 0 = 119 then 2 else 0) +
                   (if permStr.getD 2 0 = 120 then 1 else 0), []⟩

/-- The comma-separated entry loop of `pax::parse_acl_text`: entries are
trimmed, empty entries are skipped, the first failing entry aborts.  Each
iteration consumes at least one byte, so fuel `l.length + 1` (as supplied
by `parse_acl_text`) always suffices; the fuel-exhausted branch is
unreachable from that call. -/
def parse_acl_text_loop : Nat → List Nat → Except Err (List AclEntry)
  | 0, _ => .ok []
  | fuel + 1, l =>
    match getlineBytes l 44 with
    | none => .ok []
    | some er =>
      let t := trimBytes er.1
      if t = [] then parse_acl_text_loop fuel er.2
      else
        match parse_acl_entry t with
        | .error err => .error err
        | .ok entry =>
          match parse_acl_text_loop fuel er.2 with
          | .error err => .error err
          | .ok tail => .ok (entry :: tail)

/-- `pax::parse_acl_text` (pax_parser.cpp). -/
def parse_acl_text (l : List Nat) : Except Err (List AclEntry) :=
  parse_acl_text_loop (l.length + 1) l

/-- `pax::extract_acls` (pax_parser.cpp): ACL texts under `SCHILY.acl.access`
and `SCHILY.acl.default`; a failing parse leaves the respective list
empty. -/
def extract_acls (hdrs : PaxMap) : List AclEntry × List AclEntry :=
  let access := match hdrs.lookup (bytes "SCHILY.acl.access") with
    | some v => match parse_acl_text v with
      | .ok a => a
      | .error _ => []
    | none => []
  let dfl := match hdrs.lookup (bytes "SCHILY.acl.default") with
    | some v => match parse_acl_text v with
      | .ok a => a
      | .error _ => []
    | none => []
  (access, dfl)

/-- `gnu::gnu_extension_data` (gnu_tar.hpp): pending long-name and long-link
strings. -/
structure GnuExtensionData where
  longname : List Nat := []
  longlink : List Nat := []
deriving DecidableEq, Repr

/-- `gnu::apply_gnu_extensions` (gnu_tar.cpp): a non-empty long name
overrides the path, a non-empty long link overrides the link target. -/
def apply_gnu_extensions (m : Metadata) (ext : GnuExtensionData) : Metadata :=
  let m1 := if ext.longname ≠ [] then { m with path := ext.longname } else m
  if ext.longlink ≠ [] then { m1 with link_target := some ext.longlink } else m1

/-- The trailing-NUL strip at the end of `gnu::read_gnu_extension_data`:
pop bytes from the back while they are NUL. -/
def strip_trailing_nuls (l : List Nat) : List Nat :=
  (l.reverse.dropWhile (fun c => c == 0)).reverse

/-- The block-wise read loop of `gnu::read_gnu_extension_data`: read up to
512 bytes at a time; a read yielding no bytes is a corrupt archive.  Each
iteration reduces `remaining` by at least one, so fuel `dataSize` (as
supplied by `read_gnu_extension_data`) always suffices; the fuel-exhausted
branch is unreachable from that call. -/
def read_gnu_extension_loop : Nat → List Nat → Nat → List Nat →
    Except Err (List Nat × List Nat)
  | 0, s, _, acc => .ok (acc, s)
  | fuel + 1, s, remaining, acc =>
    if remaining = 0 then .ok (acc, s)
    else
      let toRead := min remaining BLOCK_SIZE
      let r := s.take toRead
      if r.length = 0 then
        .error ⟨.corruptArchive, "Unexpected end of stream while reading GNU extension data"⟩
      else read_gnu_extension_loop fuel (s.drop r.length) (remaining - r.length) (acc ++ r)

/-- Padding to the next 512-byte boundary
(`archive_reader::skip_padding` and the equivalent inline computations). -/
def skip_padding_amount (dataSize : Nat) : Nat :=
  (BLOCK_SIZE - dataSize % BLOCK_SIZE) % BLOCK_SIZE

/-- `gnu::read_gnu_extension_data` (gnu_tar.cpp): read `dataSize` bytes,
skip the padding to the next record boundary, and strip all trailing NUL
bytes from the collected string.  Returns the string and the rest of the
stream. -/
def read_gnu_extension_data (s : List Nat) (dataSize : Nat) :
    Except Err (List Nat × List Nat) :=
  if dataSize = 0 then .ok ([], s)
  else
    match read_gnu_extension_loop dataSize s dataSize [] with
    | .error e => .error e
    | .ok (result, rest) =>
      .ok (strip_trailing_nuls result, rest.drop (skip_padding_amount dataSize))

/-- Whitespace skipped between numbers of the sparse-1.0 data map
(space, newline, tab). -/
def isWsByte (c : Nat) : Bool := c == 32 || c == 10 || c == 9

/-- Position of the first `"\n\n"` in the block, if any
(`data.find("\n\n")` in `sparse::parse_sparse_1_0_data_map`). -/
def find_double_newline : List Nat → Option Nat
  | [] => none
  | [_] => none
  | a :: b :: rest =>
    if a = 10 ∧ b = 10 then some 0
    else (find_double_newline (b :: rest)).map (· + 1)

/-- End of the sparse-map portion of the first data block: the first
`"\n\n"`, else the first NUL, else the whole block. -/
def sparse_map_end (data : List Nat) : Nat :=
  match find_double_newline data with
  | some i => i
  | none =>
    match data.indexOf? 0 with
    | some j => j
    | none => data.length

/-- The number-collection loop of `sparse::parse_sparse_1_0_data_map`:
skip whitespace, read a decimal-digit run, stop at the first byte that is
neither; a run whose value exceeds `UINT64_MAX` is an invalid-header
error.  Each iteration consumes at least one byte, so fuel `l.length + 1`
(as supplied by `extract_map_numbers`) always suffices; the fuel-exhausted
branch is unreachable from that call. -/
def extract_map_numbers_loop : Nat → List Nat → Except Err (List Nat)
  | 0, _ => .ok []
  | fuel + 1, l =>
    let l1 := l.dropWhile isWsByte
    let ds := l1.takeWhile isDigit
    if ds = [] then .ok []
    else if 2 ^ 64 - 1 < digitsValue ds then
      .error ⟨.invalidHeader, "Invalid number in sparse map data block"⟩
    else
      match extract_map_numbers_loop fuel (l1.drop ds.length) with
      | .error e => .error e
      | .ok rest => .ok (digitsValue ds :: rest)

/-- The collected decimal numbers of the sparse-1.0 map portion. -/
def extract_map_numbers (l : List Nat) : Except Err (List Nat) :=
  extract_map_numbers_loop (l.length + 1) l

/-- The pair-selection loop of `sparse::parse_sparse_1_0_data_map`: starting
after the first number, take `(offset, size)` pairs while two numbers
remain, stopping at a pair with zero size, size above the real size, or
`offset + size` above twice the real size.  All three quantities are
unsigned 64-bit in the source, so both `offset + size` and
`real_size * 2` are computed modulo `2 ^ 64`. -/
def selectPairsLoop : List Nat → Nat → List SparseEntry
  | o :: s :: rest, realSize =>
    if s = 0 ∨ realSize < s ∨ (realSize * 2) % 2 ^ 64 < (o + s) % 2 ^ 64 then []
    else ⟨o, s⟩ :: selectPairsLoop rest realSize
  | _, _ => []

/-- Segment selection of `sparse::parse_sparse_1_0_data_map`: nothing unless
at least four numbers were collected, else pairs starting from the second
number. -/
def select_sparse_segments (numbers : List Nat) (realSize : Nat) : List SparseEntry :=
  if 4 ≤ numbers.length then selectPairsLoop (numbers.drop 1) realSize else []

/-- `sparse::parse_sparse_1_0_data_map` (sparse.cpp): read one 512-byte block
(a short block is used as-is; an empty read yields no segments), delimit
the map portion, collect decimal numbers and select segments. -/
def parse_sparse_1_0_data_map (s : List Nat) (realSize : Nat) : Except Err SparseMeta :=
  let block := s.take BLOCK_SIZE
  if block.length = 0 then .ok ⟨realSize, []⟩
  else
    let mapData := block.take (sparse_map_end block)
    match extract_map_numbers mapData with
    | .error e => .error e
    | .ok numbers => .ok ⟨realSize, select_sparse_segments numbers realSize⟩

/-- The state captured by the streaming `base_reader` lambda of
`archive_reader::next_entry` (stream.cpp): the stream and the
`current_entry_data_remaining_` / `current_entry_data_consumed_`
counters. -/
structure BaseState where
  stream : List Nat
  remaining : Nat
  consumed : Nat
deriving DecidableEq, Repr

/-- The streaming-mode `base_reader` lambda of `archive_reader::next_entry`
(stream.cpp): any positive offset is rejected as unsupported; an offset
below the consumed count is a backward seek; a gap is skipped; then up to
`min length remaining` bytes are read and the counters advanced by the
bytes actually obtained. -/
def base_reader (st : BaseState) (offset length : Nat) :
    Except Err (List Nat × BaseState) :=
  if 0 < offset then
    .error ⟨.unsupportedFeature, "Streaming mode does not support offset reads"⟩
  else if offset < st.consumed then
    .error ⟨.invalidOperation, "Cannot seek backwards in streaming mode"⟩
  else
    let skipAmount := offset - st.consumed
    let st1 :=
      if 0 < skipAmount then
        { stream := st.stream.drop skipAmount
          remaining := st.remaining - skipAmount
          consumed := st.consumed + skipAmount }
      else st
    let toRead := min length st1.remaining
    if toRead = 0 then .ok ([], st1)
    else
      let res := st1.stream.take toRead
      .ok (res, { stream := st1.stream.drop res.length
                  remaining := st1.remaining - res.length
                  consumed := st1.consumed + res.length })

/-- Physical offset of a position inside segment `idx` in the concatenated
segment data, as computed by the segment branch of the
`make_sparse_reader` lambda. -/
def sparse_data_offset (m : SparseMeta) (idx segOffset : Nat) : Nat :=
  ((m.segments.take idx).map (·.size)).sum + segOffset

/-- Start of the first segment after `cur`, else the real size, as computed
by the hole branch of the `make_sparse_reader` lambda. -/
def next_segment_start (m : SparseMeta) (cur : Nat) : Nat :=
  match m.segments.find? (fun seg => decide (cur < seg.offset)) with
  | some seg => seg.offset
  | none => m.real_size

/-- The while-loop of the `sparse::make_sparse_reader` lambda (tar.hpp),
with the streaming `base_reader` as the underlying reader.  The C++ loop has
no fuel; every hole iteration makes progress, so the fuel used below can
run out only where the C++ loop would spin without progress on an exhausted
stream. -/
def sparse_read_loop (m : SparseMeta) :
    Nat → Nat → Nat → BaseState → List Nat → Except Err (List Nat × BaseState)
  | 0, _, _, st, acc => .ok (acc, st)
  | fuel + 1, cur, rem, st, acc =>
    if rem = 0 then .ok (acc, st)
    else
      match m.find_segment cur with
      | some i =>
        let seg := m.segments.getD i ⟨0, 0⟩
        let segOffset := cur - seg.offset
        let segRemaining := seg.size - segOffset
        let toRead := min rem segRemaining
        match base_reader st (sparse_data_offset m i segOffset) toRead with
        | .error e => .error e
        | .ok (res, st1) =>
          sparse_read_loop m fuel (cur + res.length) (rem - res.length) st1 (acc ++ res)
      | none =>
        let nss := next_segment_start m cur
        let holeSize := nss - cur
        let toFill := min rem holeSize
        sparse_read_loop m fuel (cur + toFill) (rem - toFill) st
          (acc ++ List.replicate toFill 0)

/-- One read through the `sparse::make_sparse_reader` lambda (tar.hpp) over
the streaming `base_reader`: empty result at or past the real size,
otherwise the length is clamped to `real_size - offset` and the loop
assembles segment bytes and hole zeros. -/
def make_sparse_reader_read (m : SparseMeta) (st : BaseState) (offset length : Nat) :
    Except Err (List Nat × BaseState) :=
  if m.real_size ≤ offset then .ok ([], st)
  else
    let len := min length (m.real_size - offset)
    sparse_read_loop m (len + 1) offset len st []

/-- `archive_reader::skip_current_entry_data` (stream.cpp) as a byte count:
the undread remainder of the entry payload is skipped, and when the entry
size is positive the padding computed over that entry size is skipped. -/
def skip_current_entry_data_amount (entrySize remaining : Nat) : Nat :=
  remaining + (if 0 < entrySize then skip_padding_amount entrySize else 0)

/-- Initial `(current_entry_data_remaining_, entry size)` pair set by
`archive_reader::next_entry` (stream.cpp): for sparse entries the remaining
counter starts at the total stored segment size while the metadata size is
rewritten to the real size; otherwise both are the size field. -/
def entry_initial_accounting (sparseInfo : Option SparseMeta) (sizeField : Nat) :
    Nat × Nat :=
  match sparseInfo with
  | some si => (si.total_data_size, si.real_size)
  | none => (sizeField, sizeField)

/-- Bytes by which the stream advances over an entry's payload region
between its yield and the next header read, when the caller consumed
`consumed` payload bytes: the caller's reads plus
`skip_current_entry_data`. -/
def entry_stream_advance (sparseInfo : Option SparseMeta) (sizeField consumed : Nat) :
    Nat :=
  let acct := entry_initial_accounting sparseInfo sizeField
  consumed + skip_current_entry_data_amount acct.2 (acct.1 - consumed)

/-- The PAX application block of `archive_reader::next_entry`
(stream.cpp, after `apply_gnu_extensions`): with pending PAX headers, the
`path` key overrides the path; the `size` key overrides the size when
`std::from_chars` succeeds on it and is otherwise ignored; GNU sparse 1.0
markers rewrite the size to the real size and install a placeholder sparse
descriptor; extended attributes and ACLs are extracted.  The boolean is
the `needs_sparse_1_0_processing_` flag. -/
def apply_pax_headers (m : Metadata) (hdrs : PaxMap) : Metadata × Bool :=
  if hdrs = [] then (m, false)
  else
    let m1 := match hdrs.lookup (bytes "path") with
      | some p => { m with path := p }
      | none => m
    let m2 := match hdrs.lookup (bytes "size") with
      | some v =>
        match from_chars_unsigned v (2 ^ 64 - 1) with
        | some n => { m1 with size := n }
        | none => m1
      | none => m1
    let sparseStep :=
      if has_gnu_sparse_markers hdrs then
        let ver := get_gnu_sparse_version hdrs
        if ver.1 = 1 ∧ ver.2 = 0 then
          let realSize := match hdrs.lookup (bytes "GNU.sparse.realsize") with
            | some v => (from_chars_unsigned v (2 ^ 64 - 1)).getD m2.size
            | none => m2.size
          ({ m2 with size := realSize, sparse_info := some ⟨realSize, []⟩ }, true)
        else (m2, false)
      else (m2, false)
    let m3 := sparseStep.1
    let acls := extract_acls hdrs
    ({ m3 with xattrs := extract_extended_attributes hdrs
               access_acl := acls.1
               default_acl := acls.2 }, sparseStep.2)

/-- State of `archive_reader::iterator` (archive_reader.hpp): the reader
pointer (`none` models `nullptr`, the end iterator), the current entry and
the `error_occurred_` flag.  `σ` is the reader state, `ε` the entry type;
the iterator logic is independent of both. -/
structure IterState (σ ε : Type) where
  reader : Option σ
  current : Option ε
  errorOccurred : Bool
deriving DecidableEq, Repr

/-- `archive_reader::iterator::operator++` (archive_reader.hpp), abstracting
`next_entry` as a step function on the reader state.  The boolean reports
whether the step function (and hence the byte source) was invoked. -/
def iter_advance {σ ε : Type} (step : σ → Except Err (Option ε) × σ)
    (it : IterState σ ε) : IterState σ ε × Bool :=
  match it.reader, it.errorOccurred with
  | some s, false =>
    match step s with
    | (.ok (some e), s1) => (⟨some s1, some e, false⟩, true)
    | (.ok none, _) => (⟨none, none, false⟩, true)
    | (.error _, _) => (⟨none, none, true⟩, true)
  | _, _ => (it, false)

/-- `iterator::operator==` against the default-constructed end iterator:
the reader pointer is null. -/
def iter_at_end {σ ε : Type} (it : IterState σ ε) : Bool := it.reader.isNone

/-- `n` further advances, returning the final state and the number of
invocations of the step function. -/
def iter_advance_count {σ ε : Type} (step : σ → Except Err (Option ε) × σ) :
    Nat → IterState σ ε → IterState σ ε × Nat
  | 0, it => (it, 0)
  | n + 1, it =>
    let r := iter_advance step it
    let rest := iter_advance_count step n r.1
    (rest.1, (if r.2 then 1 else 0) + rest.2)

/-- A 512-byte header record whose magic field holds `"ustar"` followed by a
NUL and whose version field is empty (two NUL bytes); every other byte is
zero. -/
def emptyVersionBlock : List Nat :=
  List.replicate 257 0 ++ bytes "ustar" ++ List.replicate 250 0

/-- The sparse descriptor of spec scenario: two segments
`(0, 100)` and `(1000, 50)` with real size 1100 and stored size 150. -/
def twoSegmentSparse : SparseMeta := ⟨1100, [⟨0, 100⟩, ⟨1000, 50⟩]⟩

/- ------------------------------------------------------------------ -/
/- Theorems.                                                          -/
/- ------------------------------------------------------------------ -/

/-- Helper: a read of a full record from a stream holding at least 512
bytes. -/
theorem read_block_full (s : List Nat) (h : 512 ≤ s.length) :
    read_block s = .ok (s.take 512, s.drop 512) := by
  have ht : (s.take BLOCK_SIZE).length = BLOCK_SIZE := by
    simp only [List.length_take, BLOCK_SIZE]
    omega
  simp only [read_block]
  rw [ht, if_pos rfl]
  rfl

/-- Helper: reading a record from an empty stream reports end-of-archive. -/
theorem read_block_nil : read_block [] = .error ⟨.endOfArchive, "Unexpected end of archive"⟩ := by
  rfl

/-- Helper: a short, non-empty stream yields a corrupt-archive error. -/
theorem read_block_short (s : List Nat) (h0 : s ≠ []) (h : s.length < 512) :
    read_block s = .error ⟨.corruptArchive, "Incomplete block read"⟩ := by
  have ht : (s.take BLOCK_SIZE).length = s.length := by
    simp only [List.length_take, BLOCK_SIZE]
    omega
  have h0' : s.length ≠ 0 := by
    simpa [List.length_eq_zero] using h0
  simp only [read_block]
  rw [ht, if_neg (by simp only [BLOCK_SIZE]; omega), if_neg h0']

/-- C1 counterexample: a stream holding exactly one all-zero record and
nothing after it.  The claim accepts this as a soft terminator
(end-of-sequence without error), but `next_entry` reports a corrupt
archive: the failed second read is not the accepted zero record the code
requires. -/
theorem single_zero_record_then_eof_is_corrupt :
    next_entry_header_phase (List.replicate 512 0) =
      .fail ⟨.corruptArchive, "Single zero block in archive"⟩ ∧
    next_entry_header_phase (List.replicate 512 0) ≠ .cleanEnd := by
  constructor
  · rfl
  · decide

/-- C2 theorem (failing-input evaluation): for the sparse entry with
segments `(0, 100)` and `(1000, 50)` (stored payload 150 bytes, real size
1100) and an untouched payload, the reader advances the byte source by
`150 + pad(1100) = 586` bytes, not by the
`150 + pad(150) = 512` bytes the claim requires, because
`skip_current_entry_data` computes the padding over the entry's reported
(real) size instead of the stored size. -/
theorem sparse_entry_advance_mismatch :
    entry_stream_advance (some twoSegmentSparse) 150 0 = 586 ∧
    twoSegmentSparse.total_data_size +
      skip_padding_amount twoSegmentSparse.total_data_size = 512 ∧
    (586 : Nat) ≠ 512 := by
  refine ⟨rfl, rfl, by decide⟩

/-- C3 theorem (failing-input evaluation): with the same sparse descriptor
and a 150-byte physical payload, both the full logical read `(0, 1100)`
and the direct read `(1000, 50)` of the second segment fail with the
unsupported-feature error of the streaming `base_reader`, because the
sparse view asks it for physical offset 100 > 0. -/
theorem sparse_second_segment_read_errors :
    make_sparse_reader_read twoSegmentSparse ⟨List.range 150, 150, 0⟩ 0 1100 =
      .error ⟨.unsupportedFeature, "Streaming mode does not support offset reads"⟩ ∧
    make_sparse_reader_read twoSegmentSparse ⟨List.range 150, 150, 0⟩ 1000 50 =
      .error ⟨.unsupportedFeature, "Streaming mode does not support offset reads"⟩ := by
  constructor
  · rfl
  · rfl

/-- C1 (amended): the entry iterator ends the sequence without error exactly
when (iff) either the stream exhausts — with no bytes at all — where a
header is expected, or two consecutive all-zero 512-byte records are read
there; an all-zero record followed by anything else (a readable non-zero
record, a short record, or stream exhaustion) is an error. -/
theorem terminator_clean_end_iff (s : List Nat) :
    next_entry_header_phase s = .cleanEnd ↔
      (s = [] ∨ (1024 ≤ s.length ∧ is_zero_block (s.take 512) = true ∧
        is_zero_block ((s.drop 512).take 512) = true)) := by
  by_cases h0 : s = []
  · subst h0
    constructor
    · intro _
      exact Or.inl rfl
    · intro _
      rfl
  · have h0len : 0 < s.length := List.length_pos.mpr h0
    rcases Nat.lt_or_ge s.length 512 with hlt | hge
    · simp only [next_entry_header_phase, read_block_short s h0 hlt]
      constructor
      · intro hcontra
        simp at hcontra
      · intro hr
        rcases hr with hr | hr
        · exact absurd hr h0
        · omega
    · have hfull := read_block_full s hge
      have hdlen : (s.drop 512).length = s.length - 512 := by
        simp [List.length_drop]
      by_cases hz1 : is_zero_block (s.take 512) = true
      · rcases Nat.lt_or_ge s.length 1024 with hlt2 | hge2
        · have hrlen : (s.drop 512).length < 512 := by omega
          constructor
          · intro hcontra
            by_cases hr0 : s.drop 512 = []
            · simp only [next_entry_header_phase, hfull, hz1, if_true, hr0,
                read_block_nil] at hcontra
              simp at hcontra
            · simp only [next_entry_header_phase, hfull, hz1, if_true,
                read_block_short _ hr0 hrlen] at hcontra
              simp at hcontra
          · intro hr
            rcases hr with hr | hr
            · exact absurd hr h0
            · omega
        · have hrge : 512 ≤ (s.drop 512).length := by omega
          have hfull2 := read_block_full (s.drop 512) hrge
          by_cases hz2 : is_zero_block ((s.drop 512).take 512) = true
          · simp only [next_entry_header_phase, hfull, hz1, if_true, hfull2, hz2]
            simp [hge2]
          · simp only [next_entry_header_phase, hfull, hz1, if_true, hfull2,
              if_neg hz2]
            constructor
            · intro hcontra
              simp at hcontra
            · intro hr
              rcases hr with hr | hr
              · exact absurd hr h0
              · exact absurd hr.2.2 hz2
      · simp only [next_entry_header_phase, hfull, if_neg hz1]
        constructor
        · intro hcontra
          simp at hcontra
        · intro hr
          rcases hr with hr | hr
          · exact absurd hr h0
          · exact absurd hr.2.1 hz1

/-- C4: whenever the pending PAX headers contain key `path`, the emitted
entry's path equals that PAX value — it overrides both the ustar-decoded
path in the metadata and any GNU long-name applied just before. -/
theorem pax_path_override_wins (m : Metadata) (ext : GnuExtensionData) (hdrs : PaxMap)
    (p : List Nat) (hp : hdrs.lookup (bytes "path") = some p) :
    ((apply_pax_headers (apply_gnu_extensions m ext) hdrs).1).path = p := by
  have hne : hdrs ≠ [] := by
    intro h
    subst h
    simp [List.lookup] at hp
  simp only [apply_pax_headers, if_neg hne, hp]
  repeat' split
  all_goals simp

/-- Witness for C4 at a concrete input: a PAX `path` of `"big"` over a
metadata whose ustar path is `"ignored"` and a GNU long name `"longname"`. -/
theorem pax_path_override_wins_witness :
    ((apply_pax_headers
        (apply_gnu_extensions { path := bytes "ignored" } ⟨bytes "longname", []⟩)
        [(bytes "path", bytes "big")]).1).path = bytes "big" :=
  pax_path_override_wins { path := bytes "ignored" } ⟨bytes "longname", []⟩
    [(bytes "path", bytes "big")] (bytes "big") (by rfl)

/-- C7: the PAX `size` override never produces an error
(`apply_pax_headers` is a total function, mirroring the code path, which
has no error exit): when `std::from_chars` fails on the value the ustar
size is silently retained, and when it succeeds the parsed value replaces
the size.  GNU sparse-1.0 marker keys, which rewrite the size separately,
are excluded here. -/
theorem pax_size_override_semantics (m : Metadata) (hdrs : PaxMap) (v : List Nat)
    (hv : hdrs.lookup (bytes "size") = some v)
    (hns : has_gnu_sparse_markers hdrs = false) :
    (from_chars_unsigned v (2 ^ 64 - 1) = none →
      ((apply_pax_headers m hdrs).1).size = m.size) ∧
    (∀ n, from_chars_unsigned v (2 ^ 64 - 1) = some n →
      ((apply_pax_headers m hdrs).1).size = n) := by
  have hne : hdrs ≠ [] := by
    intro h
    subst h
    simp [List.lookup] at hv
  constructor
  · intro hnone
    simp only [apply_pax_headers, if_neg hne, hv, hnone, hns]
    repeat' split
    all_goals simp_all
  · intro n hsome
    simp only [apply_pax_headers, if_neg hne, hv, hsome, hns]
    repeat' split
    all_goals simp_all

/-- Witness for C7 at concrete inputs: size value `"abc"` is ignored (size
stays 7); size value `"42"` replaces the size. -/
theorem pax_size_override_semantics_witness :
    ((apply_pax_headers { size := 7 } [(bytes "size", bytes "abc")]).1).size = 7 ∧
    ((apply_pax_headers { size := 7 } [(bytes "size", bytes "42")]).1).size = 42 := by
  constructor
  · exact (pax_size_override_semantics { size := 7 } [(bytes "size", bytes "abc")]
      (bytes "abc") (by rfl) (by rfl)).1 (by rfl)
  · exact (pax_size_override_semantics { size := 7 } [(bytes "size", bytes "42")]
      (bytes "42") (by rfl) (by rfl)).2 42 (by rfl)

/-- Helper: an iterator whose reader pointer is null is a fixed point of
advancing, and no advance invokes the step function. -/
theorem iter_advance_count_none {σ ε : Type} (step : σ → Except Err (Option ε) × σ)
    (n : Nat) (it : IterState σ ε) (h : it.reader = none) :
    iter_advance_count step n it = (it, 0) := by
  induction n with
  | zero => rfl
  | succ k ih =>
    have hadv : iter_advance step it = (it, false) := by
      simp only [iter_advance, h]
    simp [iter_advance_count, hadv, ih]

/-- C9: once an advance produces an error, the iterator compares equal to
the end iterator (null reader), holds no current entry, and every further
sequence of advances leaves the state unchanged — including the latched
error flag — and invokes the underlying reader (hence the byte source)
zero times. -/
theorem iterator_error_latches {σ ε : Type} (step : σ → Except Err (Option ε) × σ)
    (it : IterState σ ε) (h0 : it.errorOccurred = false)
    (h1 : ((iter_advance step it).1).errorOccurred = true) :
    iter_at_end (iter_advance step it).1 = true ∧
    ((iter_advance step it).1).current = none ∧
    ∀ n, iter_advance_count step n (iter_advance step it).1 =
      ((iter_advance step it).1, 0) := by
  cases hr : it.reader with
  | none =>
    have hadv : iter_advance step it = (it, false) := by
      simp only [iter_advance, hr]
    rw [hadv] at h1
    rw [h0] at h1
    exact absurd h1 (by simp)
  | some s =>
    rcases hstep : step s with ⟨res, s1⟩
    cases res with
    | ok o =>
      cases o with
      | some e =>
        have hadv : iter_advance step it = (⟨some s1, some e, false⟩, true) := by
          simp only [iter_advance, hr, h0, hstep]
        rw [hadv] at h1
        exact absurd h1 (by simp)
      | none =>
        have hadv : iter_advance step it = (⟨none, none, false⟩, true) := by
          simp only [iter_advance, hr, h0, hstep]
        rw [hadv] at h1
        exact absurd h1 (by simp)
    | error err =>
      have hadv : iter_advance step it = (⟨none, none, true⟩, true) := by
        simp only [iter_advance, hr, h0, hstep]
      rw [hadv]
      exact ⟨rfl, rfl, fun n => iter_advance_count_none step n _ rfl⟩

/-- Witness for C9 at a concrete input: a step function that fails
immediately over reader state `0`. -/
theorem iterator_error_latches_witness :
    iter_at_end (iter_advance
      (fun s : Nat => ((Except.error ⟨.ioError, "boom"⟩ : Except Err (Option Nat)), s))
      (⟨some 0, none, false⟩ : IterState Nat Nat)).1 = true :=
  (iterator_error_latches
    (fun s : Nat => ((Except.error ⟨.ioError, "boom"⟩ : Except Err (Option Nat)), s))
    (⟨some 0, none, false⟩ : IterState Nat Nat) rfl rfl).1

/-- Helper: the GNU-extension read loop collects exactly the next
`remaining` stream bytes when the stream holds at least that many and the
fuel is at least `remaining`. -/
theorem read_gnu_extension_loop_ok (fuel : Nat) :
    ∀ (s : List Nat) (remaining : Nat) (acc : List Nat),
      remaining ≤ fuel → remaining ≤ s.length →
      read_gnu_extension_loop fuel s remaining acc =
        .ok (acc ++ s.take remaining, s.drop remaining) := by
  induction fuel with
  | zero =>
    intro s remaining acc h1 _h2
    have h0 : remaining = 0 := Nat.le_zero.mp h1
    subst h0
    simp [read_gnu_extension_loop]
  | succ k ih =>
    intro s remaining acc h1 h2
    by_cases h0 : remaining = 0
    · subst h0
      simp [read_gnu_extension_loop]
    · have hminpos : 0 < min remaining BLOCK_SIZE := by
        simp only [BLOCK_SIZE]
        omega
      have hminle : min remaining BLOCK_SIZE ≤ s.length := by
        have := Nat.min_le_left remaining BLOCK_SIZE
        omega
      have htlen : (s.take (min remaining BLOCK_SIZE)).length = min remaining BLOCK_SIZE := by
        simp only [List.length_take]
        omega
      simp only [read_gnu_extension_loop, if_neg h0, htlen]
      rw [if_neg (by omega)]
      rw [ih (s.drop (min remaining BLOCK_SIZE)) (remaining - min remaining BLOCK_SIZE)
        (acc ++ s.take (min remaining BLOCK_SIZE)) (by omega)
        (by simp only [List.length_drop]; omega)]
      have hsplit : s.take remaining =
          s.take (min remaining BLOCK_SIZE) ++
            (s.drop (min remaining BLOCK_SIZE)).take (remaining - min remaining BLOCK_SIZE) := by
        rw [← List.take_add]
        congr 1
        omega
      have hdrop : (s.drop (min remaining BLOCK_SIZE)).drop (remaining - min remaining BLOCK_SIZE) =
          s.drop remaining := by
        rw [List.drop_drop]
        congr 1
        omega
      rw [hsplit, hdrop, List.append_assoc]

/-- C10: for a GNU `L` or `K` record whose payload fits the stream, the
string handed to `apply_gnu_extensions` is the payload with every trailing
NUL byte removed (the padding to the record boundary is skipped
separately), and the override is applied only when that stripped string is
non-empty: an empty long name leaves the path, an empty long link leaves
the link target. -/
theorem gnu_extension_string_semantics (s : List Nat) (dataSize : Nat) (m : Metadata)
    (h : dataSize ≤ s.length) :
    read_gnu_extension_data s dataSize =
      .ok (strip_trailing_nuls (s.take dataSize),
           (s.drop dataSize).drop (skip_padding_amount dataSize)) ∧
    (∀ v, (apply_gnu_extensions m ⟨v, []⟩).path = if v = [] then m.path else v) ∧
    (∀ v, (apply_gnu_extensions m ⟨[], v⟩).link_target =
      if v = [] then m.link_target else some v) := by
  refine ⟨?_, ?_, ?_⟩
  · by_cases h0 : dataSize = 0
    · subst h0
      simp [read_gnu_extension_data, strip_trailing_nuls, skip_padding_amount, BLOCK_SIZE]
    · simp only [read_gnu_extension_data, if_neg h0,
        read_gnu_extension_loop_ok dataSize s dataSize [] (Nat.le_refl _) h,
        List.nil_append]
  · intro v
    by_cases hv : v = []
    · subst hv
      simp [apply_gnu_extensions]
    · simp [apply_gnu_extensions, hv]
  · intro v
    by_cases hv : v = []
    · subst hv
      simp [apply_gnu_extensions]
    · simp [apply_gnu_extensions, hv]

/-- Witness for C10 at a concrete input: a 4-byte payload `"ab\0\0"`
stripping to `"ab"`. -/
theorem gnu_extension_string_semantics_witness :
    read_gnu_extension_data [97, 98, 0, 0, 7, 7, 7, 7] 4 =
      .ok (strip_trailing_nuls ([97, 98, 0, 0, 7, 7, 7, 7].take 4),
           (([97, 98, 0, 0, 7, 7, 7, 7] : List Nat).drop 4).drop (skip_padding_amount 4)) :=
  (gnu_extension_string_semantics [97, 98, 0, 0, 7, 7, 7, 7] 4 {} (by decide)).1

/-- C5 counterexample: a sparse-1.0 data block declaring count 1 and the
single pair `(0, 512)` — three numbers, NUL-padded as GNU tar writes it.
The decoder requires at least four numbers, so the declared segment is
lost and the segment list comes back empty instead of `[(0, 512)]`. -/
theorem sparse_1_0_single_segment_map_lost :
    parse_sparse_1_0_data_map (bytes "1\n0\n512\n" ++ List.replicate 16 0) 512 =
      .ok ⟨512, []⟩ ∧
    (⟨512, []⟩ : SparseMeta) ≠ ⟨512, [⟨0, 512⟩]⟩ :=
  ⟨rfl, by decide⟩

/-- Helper: the pair-selection loop recovers exactly the pairs of a
flattened `(offset, size)` list whose entries pass the heuristic bounds. -/
theorem selectPairsLoop_flat (realSize : Nat) (pairs : List SparseEntry)
    (h : ∀ e ∈ pairs, e.size ≠ 0 ∧ e.size ≤ realSize ∧
      (e.offset + e.size) % 2 ^ 64 ≤ (realSize * 2) % 2 ^ 64) :
    selectPairsLoop (pairs.flatMap (fun e => [e.offset, e.size])) realSize = pairs := by
  induction pairs with
  | nil => rfl
  | cons e rest ih =>
    have he := h e (by simp)
    have hrest : ∀ x ∈ rest, x.size ≠ 0 ∧ x.size ≤ realSize ∧
        (x.offset + x.size) % 2 ^ 64 ≤ (realSize * 2) % 2 ^ 64 :=
      fun x hx => h x (by simp [hx])
    rw [List.flatMap_cons]
    show selectPairsLoop
      (e.offset :: e.size :: rest.flatMap (fun e => [e.offset, e.size])) realSize = e :: rest
    rw [selectPairsLoop]
    rw [if_neg (by
      push_neg
      exact ⟨he.1, he.2.1, he.2.2⟩)]
    rw [ih hrest]

/-- Helper: a flattened pair list has twice as many numbers as pairs. -/
theorem flat_pairs_length (pairs : List SparseEntry) :
    (pairs.flatMap (fun e => [e.offset, e.size])).length = 2 * pairs.length := by
  induction pairs with
  | nil => rfl
  | cons e rest ih =>
    simp only [List.flatMap_cons, List.length_append, List.length_cons, ih]
    simp
    omega

/-- C5 (amended): the decoder reads one 512-byte block from the start of the
data payload and collects the decimal numbers of the map portion (up to the
first `"\n\n"` or NUL); when those numbers are a count followed by at least
two `(offset, length)` pairs — i.e. at least four numbers — and every pair
has a non-zero length at most `real_size` with `offset + length` at most
`2 * real_size` — both sums computed in wrapping unsigned 64-bit
arithmetic, as in the source — the resulting segment list equals those
pairs in order.  When the count is 1 (three numbers), the segment list is
empty instead. -/
theorem sparse_1_0_map_recovery_amended (s : List Nat) (realSize count : Nat)
    (pairs : List SparseEntry)
    (h1 : extract_map_numbers ((s.take BLOCK_SIZE).take (sparse_map_end (s.take BLOCK_SIZE))) =
          .ok (count :: pairs.flatMap (fun e => [e.offset, e.size])))
    (h2 : 2 ≤ pairs.length)
    (h3 : ∀ e ∈ pairs, e.size ≠ 0 ∧ e.size ≤ realSize ∧
      (e.offset + e.size) % 2 ^ 64 ≤ (realSize * 2) % 2 ^ 64) :
    parse_sparse_1_0_data_map s realSize = .ok ⟨realSize, pairs⟩ := by
  have hblock : s.take BLOCK_SIZE ≠ [] := by
    intro hb
    rw [hb] at h1
    simp [sparse_map_end, find_double_newline, extract_map_numbers,
      extract_map_numbers_loop] at h1
  have hlen : (s.take BLOCK_SIZE).length ≠ 0 := by
    simpa [List.length_eq_zero] using hblock
  have hsel : select_sparse_segments
      (count :: pairs.flatMap (fun e => [e.offset, e.size])) realSize = pairs := by
    simp only [select_sparse_segments]
    rw [if_pos (by simp only [List.length_cons, flat_pairs_length]; omega)]
    simpa using selectPairsLoop_flat realSize pairs h3
  simp only [parse_sparse_1_0_data_map]
  rw [if_neg hlen, h1]
  simp [hsel]

/-- Witness for C5 (amended) at a concrete input: count 2 with pairs
`(0, 100)` and `(200, 100)`, real size 1000. -/
theorem sparse_1_0_map_recovery_amended_witness :
    parse_sparse_1_0_data_map (bytes "2\n0\n100\n200\n100\n" ++ List.replicate 8 0) 1000 =
      .ok ⟨1000, [⟨0, 100⟩, ⟨200, 100⟩]⟩ :=
  sparse_1_0_map_recovery_amended (bytes "2\n0\n100\n200\n100\n" ++ List.replicate 8 0)
    1000 2 [⟨0, 100⟩, ⟨200, 100⟩] (by rfl) (by decide) (by decide)

/-- C6 counterexample: a record with the recognized magic `"ustar\0"` and an
all-NUL (empty) version field.  The claim says an empty version is
accepted; `parse_header` rejects it with the invalid-header version
error. -/
theorem empty_version_rejected :
    parse_header emptyVersionBlock = .error ⟨.invalidHeader, "Unsupported tar version"⟩ ∧
    extract_string (field emptyVersionBlock 263 2) = [] :=
  ⟨rfl, rfl⟩

/-- Helper: `parse_octal` only ever produces the two octal error values. -/
theorem parse_octal_loop_error_msg (l : List Nat) :
    ∀ (r : Nat) (f : Bool) (e : Err), parse_octal_loop l r f = .error e →
      e = ⟨.invalidHeader, "Invalid octal digit"⟩ ∨
      e = ⟨.invalidHeader, "Octal value overflow"⟩ := by
  induction l with
  | nil =>
    intro r f e h
    simp [parse_octal_loop] at h
  | cons c rest ih =>
    intro r f e h
    rw [parse_octal_loop] at h
    split at h
    · split at h
      · exact absurd h (by simp)
      · exact ih _ _ _ h
    · split at h
      · cases h
        exact Or.inl rfl
      · split at h
        · cases h
          exact Or.inr rfl
        · exact ih _ _ _ h

/-- Helper: `parse_octal` errors carry only the two octal messages. -/
theorem parse_octal_error_msg (l : List Nat) (e : Err) (h : parse_octal l = .error e) :
    e = ⟨.invalidHeader, "Invalid octal digit"⟩ ∨
    e = ⟨.invalidHeader, "Octal value overflow"⟩ :=
  parse_octal_loop_error_msg l 0 false e h

/-- Helper: two distinct error values give distinct `Except.error`
results. -/
theorem err_error_ne {α : Type} (e1 e2 : Err) (h : e1 ≠ e2) :
    (Except.error e1 : Except Err α) ≠ Except.error e2 := by
  intro hc
  apply h
  injection hc

set_option maxHeartbeats 2000000 in
/-- C6 (amended): for a record with a recognized magic, `parse_header`
rejects with the invalid-header version error exactly when the version
field is neither `"00"` nor a single space — in particular an empty
(all-NUL) version field is rejected, not accepted. -/
theorem version_gate_amended (block : List Nat)
    (hm : extract_string (field block 257 6) = bytes "ustar" ∨
          extract_string (field block 257 6) = bytes "ustar ") :
    parse_header block = .error ⟨.invalidHeader, "Unsupported tar version"⟩ ↔
      (extract_string (field block 263 2) ≠ bytes "00" ∧
       extract_string (field block 263 2) ≠ bytes " ") := by
  have hmagic : ¬(extract_string (field block 257 6) ≠ bytes "ustar" ∧
      extract_string (field block 257 6) ≠ bytes "ustar ") := by
    rcases hm with h | h <;> simp [h]
  constructor
  · intro herr
    by_contra hv
    simp only [parse_header, if_neg hmagic, if_neg hv] at herr
    rcases hck : parse_octal (field block 148 8) with e | n
    · rw [hck] at herr
      have hmsg := parse_octal_error_msg _ _ hck
      rcases hmsg with hmsg | hmsg <;>
        · rw [hmsg] at herr
          simp at herr
    · simp only [hck] at herr
      by_cases hsum : calculate_checksum block = n
      · rw [if_neg (by simp [hsum])] at herr
        split at herr
        · repeat' split at herr
          all_goals
            first
              | exact absurd herr (err_error_ne _ _ (by decide))
              | simp at herr
        · exact absurd herr (err_error_ne _ _ (by decide))
      · rw [if_pos (by simpa using hsum)] at herr
        simp at herr
  · intro hv
    simp only [parse_header, if_neg hmagic, if_pos hv]

/-- Witness for C6 (amended) at the concrete all-NUL-version record. -/
theorem version_gate_amended_witness :
    parse_header emptyVersionBlock = .error ⟨.invalidHeader, "Unsupported tar version"⟩ :=
  (version_gate_amended emptyVersionBlock (Or.inl (by rfl))).mpr (by decide)

/-- C8 counterexample: the ACL text `"user::foo"`, whose permission part
consists of three characters none of which is the expected letter or `-`.
The claim requires an error; `parse_acl_text` accepts it with all
permission bits clear. -/
theorem acl_bad_perm_chars_accepted :
    parse_acl_text (bytes "user::foo") = .ok [⟨.userObj, 0, 0, []⟩] ∧
    (parse_acl_text (bytes "user::foo")).isOk = true :=
  ⟨rfl, rfl⟩

/-- Helper: `dropWhile` is the identity when no element satisfies the
predicate. -/
theorem dropWhile_eq_self_of_all {p : Nat → Bool} (l : List Nat)
    (h : ∀ c ∈ l, p c = false) : l.dropWhile p = l := by
  cases l with
  | nil => rfl
  | cons a t =>
    rw [List.dropWhile_cons_of_neg]
    simp [h a (by simp)]

/-- Helper: trimming is the identity on a string without spaces or tabs. -/
theorem trimBytes_eq_self (l : List Nat) (h : ∀ c ∈ l, isTrimByte c = false) :
    trimBytes l = l := by
  unfold trimBytes
  rw [dropWhile_eq_self_of_all l h,
    dropWhile_eq_self_of_all l.reverse (fun c hc => h c (List.mem_reverse.mp hc)),
    List.reverse_reverse]

/-- Helper: `getline` consumes the whole remainder when the delimiter does
not occur. -/
theorem getline_no_delim (l : List Nat) (d : Nat) (hne : l ≠ [])
    (h : ∀ c ∈ l, c ≠ d) : getlineBytes l d = some (l, []) := by
  have ht : l.takeWhile (fun c => !(c == d)) = l := by
    rw [List.takeWhile_eq_self_iff]
    intro c hc
    simpa using h c hc
  have hd : l.dropWhile (fun c => !(c == d)) = [] := by
    rw [List.dropWhile_eq_nil_iff]
    intro c hc
    simpa using h c hc
  simp [getlineBytes, hne, ht, hd]

/-- Helper: the ACL entry loop at any fuel accepts the empty text. -/
theorem parse_acl_text_loop_nil (fuel : Nat) :
    parse_acl_text_loop fuel [] = .ok [] := by
  cases fuel <;> rfl

/-- Helper: on a non-empty comma-free, whitespace-free text,
`parse_acl_text` parses exactly one entry. -/
theorem parse_acl_text_single (l : List Nat) (hne : l ≠ [])
    (h44 : ∀ c ∈ l, c ≠ 44) (htr : ∀ c ∈ l, isTrimByte c = false) :
    parse_acl_text l = match parse_acl_entry l with
      | .error err => .error err
      | .ok e => .ok [e] := by
  have hgl : getlineBytes l 44 = some (l, []) := getline_no_delim l 44 hne h44
  have htrim : trimBytes l = l := trimBytes_eq_self l htr
  rw [parse_acl_text]
  simp only [parse_acl_text_loop, hgl, htrim, if_neg hne, parse_acl_text_loop_nil]

/-- C8 (amended): `parse_acl_text` validates only the length of the
permission part, never its characters.  For a `user::` entry whose
permission part (free of comma, newline, space and tab) has exactly three
bytes the parse succeeds, with read=4 granted exactly when byte 0 is `r`,
write=2 when byte 1 is `w`, execute=1 when byte 2 is `x`, and any other
byte — letter or not — silently granting nothing; an empty part yields the
invalid-entry-format error and a part of any other length yields the
invalid-permission-format error, both with kind invalid-header. -/
theorem acl_perm_length_only (p : List Nat)
    (hp : ∀ c ∈ p, c ≠ 44 ∧ c ≠ 10 ∧ c ≠ 32 ∧ c ≠ 9) :
    parse_acl_text (bytes "user::" ++ p) =
      (if p = [] then
        .error ⟨.invalidHeader,
          "Invalid ACL entry format: " ++ strOfBytes (bytes "user::" ++ p)⟩
      else if p.length = 3 then
        .ok [⟨.userObj, 0,
              (if p.getD 0 0 = 114 then 4 else 0) +
              (if p.getD 1 0 = 119 then 2 else 0) +
              (if p.getD 2 0 = 120 then 1 else 0), []⟩]
      else
        .error ⟨.invalidHeader,
          "Invalid ACL permission format: " ++ strOfBytes p⟩) := by
  have hb : bytes "user::" = [117, 115, 101, 114, 58, 58] := rfl
  have hbu : bytes "user" = [117, 115, 101, 114] := rfl
  rw [hb]
  have hl44 : ∀ c ∈ [117, 115, 101, 114, 58, 58] ++ p, c ≠ 44 := by
    intro c hc
    rcases List.mem_append.mp hc with hc | hc
    · simp at hc
      rcases hc with rfl | rfl | rfl | rfl | rfl <;> decide
    · exact (hp c hc).1
  have htr : ∀ c ∈ [117, 115, 101, 114, 58, 58] ++ p, isTrimByte c = false := by
    intro c hc
    rcases List.mem_append.mp hc with hc | hc
    · simp at hc
      rcases hc with rfl | rfl | rfl | rfl | rfl <;> decide
    · have := hp c hc
      simp [isTrimByte]
      omega
  rw [parse_acl_text_single _ (by simp) hl44 htr]
  have hperm : p.takeWhile (fun c => !(c == 10)) = p := by
    rw [List.takeWhile_eq_self_iff]
    intro c hc
    simpa using (hp c hc).2.1
  by_cases hp0 : p = []
  · subst hp0
    rfl
  · have h1 : getlineBytes ([117, 115, 101, 114, 58, 58] ++ p) 58 =
        some ([117, 115, 101, 114], 58 :: p) := by
      simp [getlineBytes]
    have h2 : getlineBytes (58 :: p) 58 = some ([], p) := by
      simp [getlineBytes]
    by_cases hl3 : p.length = 3
    · simp only [parse_acl_entry, h1, h2, if_neg hp0, hperm, hbu, hl3]
      simp [hp0]
    · simp only [parse_acl_entry, h1, h2, if_neg hp0, hperm, hbu]
      simp [hp0, hl3]

/-- Witness for C8 (amended) at concrete inputs exercising both outcomes:
permission part `"rz-"` — three characters, `z` not a valid letter —
parses without error to permission bits 4, while the two-character part
`"rw"` yields the invalid-permission-format error. -/
theorem acl_perm_length_only_witness :
    (parse_acl_text (bytes "user::" ++ [114, 122, 45]) =
      (if ([114, 122, 45] : List Nat) = [] then
        .error ⟨.invalidHeader,
          "Invalid ACL entry format: " ++ strOfBytes (bytes "user::" ++ [114, 122, 45])⟩
      else if ([114, 122, 45] : List Nat).length = 3 then
        .ok [⟨.userObj, 0,
              (if [114, 122, 45].getD 0 0 = 114 then 4 else 0) +
              (if [114, 122, 45].getD 1 0 = 119 then 2 else 0) +
              (if [114, 122, 45].getD 2 0 = 120 then 1 else 0), []⟩]
      else
        .error ⟨.invalidHeader,
          "Invalid ACL permission format: " ++ strOfBytes [114, 122, 45]⟩)) ∧
    (parse_acl_text (bytes "user::" ++ [114, 119]) =
      (if ([114, 119] : List Nat) = [] then
        .error ⟨.invalidHeader,
          "Invalid ACL entry format: " ++ strOfBytes (bytes "user::" ++ [114, 119])⟩
      else if ([114, 119] : List Nat).length = 3 then
        .ok [⟨.userObj, 0,
              (if [114, 119].getD 0 0 = 114 then 4 else 0) +
              (if [114, 119].getD 1 0 = 119 then 2 else 0) +
              (if [114, 119].getD 2 0 = 120 then 1 else 0), []⟩]
      else
        .error ⟨.invalidHeader,
          "Invalid ACL permission format: " ++ strOfBytes [114, 119]⟩)) :=
  ⟨acl_perm_length_only [114, 122, 45] (by decide),
   acl_perm_length_only [114, 119] (by decide)⟩

end TarVerify
